import Mathlib

/-!
Verification of the `VoxelWorld` core of the Minecraft_threejs repository
(`src/main.js`): a sparse chunked voxel store, face-culled mesh extraction,
and 3D DDA ray/grid intersection.

Shallow embedding conventions:
* A chunk (`Cell`, a JS `Uint8Array(cellSize ^ 3)`) is modelled as a total
  function `Nat → Nat`; typed-array entries default to 0, and a write stores
  the value reduced modulo 256 (the `ToUint8` conversion).
* The JS map `this.cells` keys chunks by the string `"cx,cy,cz"`; that string
  determines and is determined by the integer triple `(cx, cy, cz)`, so we
  key by the triple directly, in an association list.
* Numbers that are JS floats used exactly (integer grid coordinates, local
  offsets) are `Int`/`Nat`; ray arithmetic is over `Rat`.
-/

/-- A chunk of voxels: a JS `Uint8Array` of length `cellSize ^ 3`, modelled as
a total map from offsets to stored byte values (zero initialised). -/
abbrev Cell : Type := Nat → Nat

/-- The voxel world (`class VoxelWorld`, `src/main.js` constructor): the chunk
edge length, the texture-atlas parameters, and the sparse map of cells. -/
structure World where
  cellSize : Nat
  tileSize : Rat
  tileTextureWidth : Rat
  tileTextureHeight : Rat
  cells : List ((Int × Int × Int) × Cell)

/-- Association-list lookup for the `this.cells[cellID]` object access. -/
def findCell : List ((Int × Int × Int) × Cell) → (Int × Int × Int) → Option Cell
  | [], _ => none
  | e :: rest, k => if e.1 = k then some e.2 else findCell rest k

/-- Source field `this.cellSliceSize = cellSize * cellSize`. -/
def World.cellSliceSize (w : World) : Nat := w.cellSize * w.cellSize

/-- Source method `computeVoxelOffset` (`src/main.js` lines 18-26):
`voxelY * cellSliceSize + voxelZ * cellSize + voxelX`, each local coordinate
being `THREE.MathUtils.euclideanModulo(c, cellSize)` (always non-negative);
`Int.emod` with a positive modulus is exactly that Euclidean modulo.  The
`| 0` in the source truncates an already-integral number and is the
identity on integer inputs. -/
def World.computeVoxelOffset (w : World) (x y z : Int) : Nat :=
  let s : Int := (w.cellSize : Int)
  let voxelX := (x % s).toNat
  let voxelY := (y % s).toNat
  let voxelZ := (z % s).toNat
  voxelY * w.cellSliceSize + voxelZ * w.cellSize + voxelX

/-- Source method `computeCellID` (`src/main.js` lines 30-36): `Math.floor(c / cellSize)`
on each axis, which on integer input with positive `cellSize` is floor
division `Int.fdiv`.  The source renders the triple as the string
`"cx,cy,cz"`; we keep the triple itself (the string key is in bijection
with it). -/
def World.computeCellID (w : World) (x y z : Int) : Int × Int × Int :=
  (x.fdiv (w.cellSize : Int), y.fdiv (w.cellSize : Int), z.fdiv (w.cellSize : Int))

/-- Source method `getCellForVoxel` (`src/main.js` lines 53-55). -/
def World.getCellForVoxel (w : World) (x y z : Int) : Option Cell :=
  findCell w.cells (w.computeCellID x y z)

/-- One `Uint8Array` element store `cell[off] = v`: values are converted to
an unsigned byte, i.e. reduced modulo 256 (Euclidean, so negative values
wrap to `[0, 255]`). -/
def writeCell (c : Cell) (off : Nat) (v : Int) : Cell :=
  fun i => if i = off then (v % 256).toNat else c i

/-- In-place mutation of the chunk stored under key `k`:
the association list with the array of that entry updated at `off`. -/
def updateCells (cs : List ((Int × Int × Int) × Cell)) (k : Int × Int × Int)
    (off : Nat) (v : Int) : List ((Int × Int × Int) × Cell) :=
  cs.map (fun e => if e.1 = k then (e.1, writeCell e.2 off v) else e)

/-- Source method `setVoxel` (`src/main.js` lines 59-69): look the chunk up; if missing and
`addCell` is false, return (store untouched); if missing and `addCell` is
true, allocate a fresh zeroed chunk (`addCellForVoxel`, lines 39-50) and
write into it; otherwise write into the existing chunk at the local offset. -/
def World.setVoxel (w : World) (x y z : Int) (v : Int) (addCell : Bool) : World :=
  match w.getCellForVoxel x y z with
  | some _ =>
    { w with cells := updateCells w.cells (w.computeCellID x y z) (w.computeVoxelOffset x y z) v }
  | none =>
    if addCell then
      { w with cells :=
          (w.computeCellID x y z, writeCell (fun _ => 0) (w.computeVoxelOffset x y z) v) :: w.cells }
    else w

/-- Source method `getVoxel` (`src/main.js` lines 72-81): 0 when the owning chunk is
missing, otherwise the stored byte at the local offset. -/
def World.getVoxel (w : World) (x y z : Int) : Nat :=
  match w.getCellForVoxel x y z with
  | some cell => cell (w.computeVoxelOffset x y z)
  | none => 0

/-- The world as constructed in `main()` (`src/main.js` lines 299-344):
`cellSize` chunks, a 16-px tile in a 256x64 atlas, and no chunk yet. -/
def emptyWorld (s : Nat) : World :=
  { cellSize := s, tileSize := 16, tileTextureWidth := 256, tileTextureHeight := 64, cells := [] }

section StoreLemmas

theorem cells_mk (w : World) (l : List ((Int × Int × Int) × Cell)) :
    ({ w with cells := l } : World).cells = l :=
  rfl

theorem setVoxel_eq_of_some (w : World) (x y z v : Int) (b : Bool) (c : Cell)
    (h : w.getCellForVoxel x y z = some c) :
    w.setVoxel x y z v b =
      { w with cells :=
          (updateCells w.cells (w.computeCellID x y z) (w.computeVoxelOffset x y z) v) } := by
  simp only [World.setVoxel, h]

theorem setVoxel_eq_of_none_true (w : World) (x y z v : Int)
    (h : w.getCellForVoxel x y z = none) :
    w.setVoxel x y z v true =
      { w with cells :=
          ((w.computeCellID x y z,
            writeCell (fun _ => 0) (w.computeVoxelOffset x y z) v) :: w.cells) } := by
  simp only [World.setVoxel, h, if_true]

theorem setVoxel_eq_of_none_false (w : World) (x y z v : Int)
    (h : w.getCellForVoxel x y z = none) :
    w.setVoxel x y z v false = w := by
  simp only [World.setVoxel, h]
  rfl

theorem updateCells_fst (e : (Int × Int × Int) × Cell) (k : Int × Int × Int)
    (off : Nat) (v : Int) :
    ((if e.1 = k then (e.1, writeCell e.2 off v) else e) : (Int × Int × Int) × Cell).1 = e.1 := by
  split <;> rfl

theorem findCell_updateCells_self (cs : List ((Int × Int × Int) × Cell))
    (k : Int × Int × Int) (off : Nat) (v : Int) :
    findCell (updateCells cs k off v) k = (findCell cs k).map (fun c => writeCell c off v) := by
  induction cs with
  | nil => rfl
  | cons e rest ih =>
    simp only [updateCells, List.map_cons] at ih ⊢
    by_cases h : e.1 = k
    · simp [findCell, h]
    · simp [findCell, h, ih]

theorem findCell_updateCells_isSome (cs : List ((Int × Int × Int) × Cell))
    (k k₂ : Int × Int × Int) (off : Nat) (v : Int) :
    (findCell (updateCells cs k off v) k₂).isSome = (findCell cs k₂).isSome := by
  induction cs with
  | nil => rfl
  | cons e rest ih =>
    simp only [updateCells, List.map_cons] at ih ⊢
    simp only [findCell, updateCells_fst]
    by_cases h₂ : e.1 = k₂
    · simp [h₂]
    · simp [h₂, ih]

theorem updateCells_of_not_mem (cs : List ((Int × Int × Int) × Cell))
    (k : Int × Int × Int) (off : Nat) (v : Int) (h : findCell cs k = none) :
    updateCells cs k off v = cs := by
  induction cs with
  | nil => rfl
  | cons e rest ih =>
    by_cases he : e.1 = k
    · simp [findCell, he] at h
    · simp [findCell, he] at h
      simp [updateCells, he] at ih ⊢
      exact ih h

theorem writeCell_idem (c : Cell) (off : Nat) (v : Int) :
    writeCell (writeCell c off v) off v = writeCell c off v := by
  funext i
  by_cases h : i = off <;> simp [writeCell, h]

theorem setVoxel_cellSize (w : World) (x y z v : Int) (b : Bool) :
    (w.setVoxel x y z v b).cellSize = w.cellSize := by
  unfold World.setVoxel
  cases w.getCellForVoxel x y z <;> simp
  split <;> rfl

/-- After a write with `addCell = true`, reading back the same coordinates
yields the written value reduced modulo 256. -/
theorem computeCellID_congr (w w₂ : World) (h : w.cellSize = w₂.cellSize) :
    w.computeCellID = w₂.computeCellID := by
  funext x y z
  simp [World.computeCellID, h]

theorem computeVoxelOffset_congr (w w₂ : World) (h : w.cellSize = w₂.cellSize) :
    w.computeVoxelOffset = w₂.computeVoxelOffset := by
  funext x y z
  simp [World.computeVoxelOffset, World.cellSliceSize, h]

theorem getCellForVoxel_mk (w : World) (l : List ((Int × Int × Int) × Cell)) (x y z : Int) :
    ({ w with cells := l } : World).getCellForVoxel x y z = findCell l (w.computeCellID x y z) :=
  rfl

theorem computeVoxelOffset_mk (w : World) (l : List ((Int × Int × Int) × Cell)) :
    ({ w with cells := l } : World).computeVoxelOffset = w.computeVoxelOffset :=
  rfl

/-- After a write with `addCell = true`, reading back the same coordinates
yields the written value reduced modulo 256. -/
theorem getVoxel_setVoxel_self (w : World) (x y z v : Int) :
    (w.setVoxel x y z v true).getVoxel x y z = (v % 256).toNat := by
  cases h : w.getCellForVoxel x y z with
  | some c =>
    rw [setVoxel_eq_of_some w x y z v true c h]
    simp only [World.getVoxel, getCellForVoxel_mk, computeVoxelOffset_mk]
    rw [findCell_updateCells_self]
    rw [show findCell w.cells (w.computeCellID x y z) = some c from h]
    simp [writeCell]
  | none =>
    rw [setVoxel_eq_of_none_true w x y z v h]
    simp only [World.getVoxel, getCellForVoxel_mk, computeVoxelOffset_mk, findCell]
    simp [writeCell]

theorem updateCells_idem (cs : List ((Int × Int × Int) × Cell)) (k : Int × Int × Int)
    (off : Nat) (v : Int) :
    updateCells (updateCells cs k off v) k off v = updateCells cs k off v := by
  induction cs with
  | nil => rfl
  | cons e rest ih =>
    simp only [updateCells, List.map_cons] at ih ⊢
    by_cases h : e.1 = k
    · simp [h, writeCell_idem, ih]
    · simp [h, ih]

/-- Repeating an identical `setVoxel` write leaves the world exactly as after
one write. -/
theorem setVoxel_setVoxel (w : World) (x y z v : Int) :
    (w.setVoxel x y z v true).setVoxel x y z v true = w.setVoxel x y z v true := by
  cases h : w.getCellForVoxel x y z with
  | some c =>
    have h1 := setVoxel_eq_of_some w x y z v true c h
    have h2 : (w.setVoxel x y z v true).getCellForVoxel x y z =
        some (writeCell c (w.computeVoxelOffset x y z) v) := by
      rw [h1]
      simp only [getCellForVoxel_mk]
      rw [findCell_updateCells_self]
      rw [show findCell w.cells (w.computeCellID x y z) = some c from h]
      rfl
    rw [setVoxel_eq_of_some _ x y z v true _ h2, h1]
    simp only [World.computeCellID, World.computeVoxelOffset, World.cellSliceSize]
    congr 1
    exact updateCells_idem _ _ _ _
  | none =>
    have hfind : findCell w.cells (w.computeCellID x y z) = none := h
    have h1 := setVoxel_eq_of_none_true w x y z v h
    have h2 : (w.setVoxel x y z v true).getCellForVoxel x y z =
        some (writeCell (fun _ => 0) (w.computeVoxelOffset x y z) v) := by
      rw [h1]
      simp only [getCellForVoxel_mk, findCell]
      simp
    rw [setVoxel_eq_of_some _ x y z v true _ h2, h1]
    have htail := updateCells_of_not_mem w.cells (w.computeCellID x y z)
      (w.computeVoxelOffset x y z) v hfind
    simp only [World.computeCellID, World.computeVoxelOffset, World.cellSliceSize] at htail ⊢
    congr 1
    simp only [updateCells, List.map_cons] at htail ⊢
    simp [writeCell_idem, htail]

end StoreLemmas

/-- Claim C1 (counterexample): the set-then-get round trip fails for a voxel
type outside the byte range even though that type is nonzero: writing 256 at
the origin of a fresh world reads back as 0, because the chunk storage is a
`Uint8Array` and stores values modulo 256. -/
theorem claim_C1_counterexample :
    ((emptyWorld 32).setVoxel 0 0 0 256 true).getVoxel 0 0 0 = 0 ∧ (256 : Int) ≠ 0 := by
  constructor
  · decide
  · decide

/-- Claim C1 (amended): for every coordinate triple and every voxel type `v`
with `0 < v < 256` (a nonzero byte, the range actually representable in the
`Uint8Array` chunk storage), `setVoxel` then `getVoxel` at the same
coordinates returns `v`, and repeating the identical `setVoxel` leaves the
store exactly as after one write. -/
theorem claim_C1 (w : World) (x y z : Int) (v : Int) (h1 : 0 < v) (h2 : v < 256) :
    (((w.setVoxel x y z v true).getVoxel x y z : Int) = v ∧
      (w.setVoxel x y z v true).setVoxel x y z v true = w.setVoxel x y z v true) := by
  constructor
  · rw [getVoxel_setVoxel_self, Int.emod_eq_of_lt (le_of_lt h1) h2]
    exact Int.toNat_of_nonneg (le_of_lt h1)
  · exact setVoxel_setVoxel w x y z v

/-- Claim C1 witness: concrete instance of the amended round trip at
coordinates (1,2,3) with type 7. -/
theorem claim_C1_witness :
    ((((emptyWorld 32).setVoxel 1 2 3 7 true).getVoxel 1 2 3 : Int) = 7 ∧
      ((emptyWorld 32).setVoxel 1 2 3 7 true).setVoxel 1 2 3 7 true =
        (emptyWorld 32).setVoxel 1 2 3 7 true) :=
  claim_C1 (emptyWorld 32) 1 2 3 7 (by decide) (by decide)

/-- Claim C10: chunk storage is a byte array, so for every world, coordinate
and integer type `v`, `setVoxel` then `getVoxel` at the same coordinates
returns `v` reduced modulo 256 (e.g. writing 256 reads back as 0); the exact
round trip therefore holds only for types in `[0, 255]`. -/
theorem claim_C10 (w : World) (x y z v : Int) :
    (w.setVoxel x y z v true).getVoxel x y z = (v % 256).toNat :=
  getVoxel_setVoxel_self w x y z v

/-- Claim C9: a `setVoxel` with `addCell = false` whose owning chunk is
missing is silently dropped: the returned world is exactly the input world
(no chunk inserted, nothing else changed), and `getVoxel` there still
returns 0. -/
theorem claim_C9 (w : World) (x y z v : Int) (h : w.getCellForVoxel x y z = none) :
    w.setVoxel x y z v false = w ∧ w.getVoxel x y z = 0 := by
  constructor
  · simp [World.setVoxel, h]
  · simp [World.getVoxel, h]

/-- Claim C9 witness: dropping a `createIfMissing = false` write on the empty
world at coordinates (5,-7,3). -/
theorem claim_C9_witness :
    (emptyWorld 32).setVoxel 5 (-7) 3 9 false = emptyWorld 32 ∧
      (emptyWorld 32).getVoxel 5 (-7) 3 = 0 :=
  claim_C9 (emptyWorld 32) 5 (-7) 3 9 rfl

/-- Claim C3: with chunk size 32 the chunk coordinate is floor division (not
truncation toward zero) on every axis, so `computeCellID (-1, 0, 0)` is
`(-1, 0, 0)`; and the local offset is the Euclidean modulo combined as
`ly * 32^2 + lz * 32 + lx`, so `computeVoxelOffset (-1, 0, 0)` is 31 (local
x = 31). -/
theorem claim_C3 :
    (∀ x y z : Int, (emptyWorld 32).computeCellID x y z = (x.fdiv 32, y.fdiv 32, z.fdiv 32)) ∧
      (emptyWorld 32).computeCellID (-1) 0 0 = (-1, 0, 0) ∧
      (emptyWorld 32).computeVoxelOffset (-1) 0 0 = 31 :=
  ⟨fun _ _ _ => rfl, by decide, by decide⟩

section StoreInvariant

/-- One recorded `setVoxel` call: coordinates, value, and the
`createIfMissing` flag. -/
structure WriteOp where
  x : Int
  y : Int
  z : Int
  v : Int
  addCell : Bool

/-- Replay a list of `setVoxel` calls against a world. -/
def applyOps (w : World) (ops : List WriteOp) : World :=
  ops.foldl (fun w o => w.setVoxel o.x o.y o.z o.v o.addCell) w

/-- A chunk with the given chunk coordinate is present in the store. -/
def World.hasCell (w : World) (k : Int × Int × Int) : Prop :=
  (findCell w.cells k).isSome = true

theorem hasCell_setVoxel (w : World) (x y z v : Int) (b : Bool) (k : Int × Int × Int) :
    (w.setVoxel x y z v b).hasCell k ↔
      (w.hasCell k ∨ (b = true ∧ w.computeCellID x y z = k)) := by
  cases h : w.getCellForVoxel x y z with
  | some c =>
    rw [setVoxel_eq_of_some w x y z v b c h]
    simp only [World.hasCell, cells_mk, findCell_updateCells_isSome]
    constructor
    · exact fun hh => Or.inl hh
    · rintro (hh | ⟨_, hk⟩)
      · exact hh
      · rw [← hk, show findCell w.cells (w.computeCellID x y z) = some c from h]
        rfl
  | none =>
    cases b with
    | true =>
      rw [setVoxel_eq_of_none_true w x y z v h]
      simp only [World.hasCell, cells_mk, findCell]
      by_cases hk : w.computeCellID x y z = k
      · simp [hk]
      · simp [World.hasCell, hk]
    | false =>
      rw [setVoxel_eq_of_none_false w x y z v h]
      simp [World.hasCell]

theorem applyOps_cellSize (ops : List WriteOp) (w : World) :
    (applyOps w ops).cellSize = w.cellSize := by
  induction ops generalizing w with
  | nil => rfl
  | cons o rest ih =>
    simp only [applyOps, List.foldl_cons] at ih ⊢
    rw [ih, setVoxel_cellSize]

theorem hasCell_applyOps (ops : List WriteOp) (w : World) (k : Int × Int × Int) :
    (applyOps w ops).hasCell k ↔
      (w.hasCell k ∨ ∃ o ∈ ops, o.addCell = true ∧ w.computeCellID o.x o.y o.z = k) := by
  induction ops generalizing w with
  | nil => simp [applyOps]
  | cons o rest ih =>
    simp only [applyOps, List.foldl_cons] at ih ⊢
    rw [ih, hasCell_setVoxel]
    rw [show (w.setVoxel o.x o.y o.z o.v o.addCell).computeCellID = w.computeCellID from
      computeCellID_congr _ _ (setVoxel_cellSize w o.x o.y o.z o.v o.addCell)]
    simp only [List.mem_cons]
    constructor
    · rintro (⟨hw | ⟨hb, hk⟩⟩ | ⟨o₂, ho₂, hb₂, hk₂⟩)
      · exact Or.inl hw
      · exact Or.inr ⟨o, Or.inl rfl, hb, hk⟩
      · exact Or.inr ⟨o₂, Or.inr ho₂, hb₂, hk₂⟩
    · rintro (hw | ⟨o₂, ho₂ | ho₂, hb₂, hk₂⟩)
      · exact Or.inl (Or.inl hw)
      · exact Or.inl (Or.inr ⟨by rw [ho₂] at hb₂; exact hb₂, by rw [ho₂] at hk₂; exact hk₂⟩)
      · exact Or.inr ⟨o₂, ho₂, hb₂, hk₂⟩

/-- Claim C2: starting from the empty store and replaying any sequence of
`setVoxel` calls, a chunk is present in the map iff some call with
`addCell = true` targeted it; and `getVoxel` at any coordinates (negative
included) of a chunk never targeted returns 0 (and, `getVoxel` being a pure
read, inserts nothing). -/
theorem claim_C2 (s : Nat) (ops : List WriteOp) (x y z : Int) (k : Int × Int × Int) :
    ((applyOps (emptyWorld s) ops).hasCell k ↔
      ∃ o ∈ ops, o.addCell = true ∧ (emptyWorld s).computeCellID o.x o.y o.z = k) ∧
    ((∀ o ∈ ops, (emptyWorld s).computeCellID o.x o.y o.z ≠ (emptyWorld s).computeCellID x y z) →
      (applyOps (emptyWorld s) ops).getVoxel x y z = 0) := by
  have hempty : ∀ k₂ : Int × Int × Int, ¬ (emptyWorld s).hasCell k₂ := by
    intro k₂ hc
    simp [World.hasCell, emptyWorld, findCell] at hc
  constructor
  · rw [hasCell_applyOps]
    constructor
    · rintro (hw | hh)
      · exact absurd hw (hempty k)
      · exact hh
    · exact fun hh => Or.inr hh
  · intro hnone
    have habs : ¬ (applyOps (emptyWorld s) ops).hasCell ((emptyWorld s).computeCellID x y z) := by
      rw [hasCell_applyOps]
      rintro (hw | ⟨o, ho, _, hk⟩)
      · exact hempty _ hw
      · exact hnone o ho hk
    have hfound : findCell (applyOps (emptyWorld s) ops).cells
        ((emptyWorld s).computeCellID x y z) = none := by
      cases hf : findCell (applyOps (emptyWorld s) ops).cells
          ((emptyWorld s).computeCellID x y z) with
      | none => rfl
      | some c => exact absurd (by rw [World.hasCell, hf]; rfl) habs
    have hcid : (applyOps (emptyWorld s) ops).computeCellID = (emptyWorld s).computeCellID :=
      computeCellID_congr _ _ (applyOps_cellSize ops (emptyWorld s))
    simp [World.getVoxel, World.getCellForVoxel, hcid, hfound]

/-- Claim C2 witness: after one write into the origin chunk, reading the
never-written chunk at (-5,-5,-5) returns 0. -/
theorem claim_C2_witness :
    (applyOps (emptyWorld 32) [⟨0, 0, 0, 7, true⟩]).getVoxel (-5) (-5) (-5) = 0 :=
  (claim_C2 32 [⟨0, 0, 0, 7, true⟩] (-5) (-5) (-5) (0, 0, 0)).2 (by decide)

end StoreInvariant

section MeshExtraction

/-- One corner of a face descriptor: the local cube position `pos` and the
tile-uv fractions `uv` (both 0/1 integers in the source table). -/
structure Corner where
  pos : Nat × Nat × Nat
  uv : Nat × Nat
  deriving DecidableEq

/-- One entry of the static `VoxelWorld.faces` table: atlas row, outward
normal direction, four corners. -/
structure Face where
  uvRow : Nat
  dir : Int × Int × Int
  corners : List Corner
  deriving DecidableEq

/-- Static table `VoxelWorld.faces` (`src/main.js` lines 231-292), in source order:
left, right, bottom, top, back, front. -/
def VoxelFaces : List Face := [
  { uvRow := 0, dir := (-1, 0, 0), corners := [
      { pos := (0, 1, 0), uv := (0, 1) },
      { pos := (0, 0, 0), uv := (0, 0) },
      { pos := (0, 1, 1), uv := (1, 1) },
      { pos := (0, 0, 1), uv := (1, 0) }] },
  { uvRow := 0, dir := (1, 0, 0), corners := [
      { pos := (1, 1, 1), uv := (0, 1) },
      { pos := (1, 0, 1), uv := (0, 0) },
      { pos := (1, 1, 0), uv := (1, 1) },
      { pos := (1, 0, 0), uv := (1, 0) }] },
  { uvRow := 1, dir := (0, -1, 0), corners := [
      { pos := (1, 0, 1), uv := (1, 0) },
      { pos := (0, 0, 1), uv := (0, 0) },
      { pos := (1, 0, 0), uv := (1, 1) },
      { pos := (0, 0, 0), uv := (0, 1) }] },
  { uvRow := 2, dir := (0, 1, 0), corners := [
      { pos := (0, 1, 1), uv := (1, 1) },
      { pos := (1, 1, 1), uv := (0, 1) },
      { pos := (0, 1, 0), uv := (1, 0) },
      { pos := (1, 1, 0), uv := (0, 0) }] },
  { uvRow := 0, dir := (0, 0, -1), corners := [
      { pos := (1, 0, 0), uv := (0, 0) },
      { pos := (0, 0, 0), uv := (1, 0) },
      { pos := (1, 1, 0), uv := (0, 1) },
      { pos := (0, 1, 0), uv := (1, 1) }] },
  { uvRow := 0, dir := (0, 0, 1), corners := [
      { pos := (0, 0, 1), uv := (0, 0) },
      { pos := (1, 0, 1), uv := (1, 0) },
      { pos := (0, 1, 1), uv := (0, 1) },
      { pos := (1, 1, 1), uv := (1, 1) }] }]

/-- The growing output buffers of `generateGeometryDataForCell`: vertex
positions (3 numbers per vertex, all local and non-negative), normals
(3 per vertex), texture coordinates (2 per vertex), triangle indices. -/
structure GeomData where
  positions : List Nat
  normals : List Int
  uvs : List Rat
  indices : List Nat

/-- One iteration of the corners loop (`src/main.js` lines 118-125):
push 3 position numbers, the face normal, and the 2 atlas-space texture
coordinates. -/
def pushCorner (w : World) (x y z uvVoxel : Nat) (f : Face) (g : GeomData) (c : Corner) :
    GeomData :=
  { g with
    positions := g.positions ++ [c.pos.1 + x, c.pos.2.1 + y, c.pos.2.2 + z],
    normals := g.normals ++ [f.dir.1, f.dir.2.1, f.dir.2.2],
    uvs := g.uvs ++
      [((uvVoxel : Rat) + (c.uv.1 : Rat)) * w.tileSize / w.tileTextureWidth,
        1 - ((f.uvRow : Rat) + 1 - (c.uv.2 : Rat)) * w.tileSize / w.tileTextureHeight] }

/-- Emit one face (`src/main.js` lines 116-127): record the running vertex
index, push the four corners, then append the two triangles
`(ndx, ndx+1, ndx+2)` and `(ndx+2, ndx+1, ndx+3)`. -/
def emitFace (w : World) (x y z uvVoxel : Nat) (f : Face) (g : GeomData) : GeomData :=
  let ndx := g.positions.length / 3
  let g₂ := f.corners.foldl (pushCorner w x y z uvVoxel f) g
  { g₂ with indices := g₂.indices ++ [ndx, ndx + 1, ndx + 2, ndx + 2, ndx + 1, ndx + 3] }

/-- One iteration of the faces loop (`src/main.js` lines 106-129): look up
the neighbor in the direction of the face through the global `getVoxel` (which
reports 0 for missing chunks) and emit the face iff the neighbor is empty. -/
def genFace (w : World) (voxelX voxelY voxelZ : Int) (x y z uvVoxel : Nat)
    (g : GeomData) (f : Face) : GeomData :=
  let neighbor := w.getVoxel (voxelX + f.dir.1) (voxelY + f.dir.2.1) (voxelZ + f.dir.2.2)
  if neighbor = 0 then emitFace w x y z uvVoxel f g else g

/-- The per-voxel body of the triple loop (`src/main.js` lines 100-130):
skip empty voxels, otherwise run the faces loop with `uvVoxel = voxel - 1`. -/
def genVoxel (w : World) (cellX cellY cellZ : Int) (x y z : Nat) (g : GeomData) : GeomData :=
  let voxelX := cellX * (w.cellSize : Int) + (x : Int)
  let voxelY := cellY * (w.cellSize : Int) + (y : Int)
  let voxelZ := cellZ * (w.cellSize : Int) + (z : Int)
  let voxel := w.getVoxel voxelX voxelY voxelZ
  if voxel ≠ 0 then
    VoxelFaces.foldl (genFace w voxelX voxelY voxelZ x y z (voxel - 1)) g
  else g

/-- Source method `generateGeometryDataForCell` (`src/main.js` lines 85-136): iterate the
local positions of the chunk, y outer, z middle, x inner, starting from empty
buffers. -/
def World.generateGeometryDataForCell (w : World) (cellX cellY cellZ : Int) : GeomData :=
  (List.range w.cellSize).foldl (fun g y =>
    (List.range w.cellSize).foldl (fun g z =>
      (List.range w.cellSize).foldl (fun g x =>
        genVoxel w cellX cellY cellZ x y z g) g) g) ⟨[], [], [], []⟩

/-- The faces the generator emits for the voxel at global coordinates
(vx, vy, vz): none for an empty voxel, else exactly those of the six whose
neighbor voxel (global lookup) is empty. -/
def emittedFaces (w : World) (vx vy vz : Int) : List Face :=
  if w.getVoxel vx vy vz ≠ 0 then
    VoxelFaces.filter (fun f =>
      decide (w.getVoxel (vx + f.dir.1) (vy + f.dir.2.1) (vz + f.dir.2.2) = 0))
  else []

/-- Number of quads emitted for one voxel. -/
def faceCount (w : World) (vx vy vz : Int) : Nat := (emittedFaces w vx vy vz).length

/-- Nested sum over the local coordinate cube of the chunk, y outer, z middle,
x inner, mirroring the loop order of the generator. -/
def tripleSum (s : Nat) (f : Nat → Nat → Nat → Nat) : Nat :=
  ((List.range s).map (fun y =>
    ((List.range s).map (fun z =>
      ((List.range s).map (fun x => f y z x)).sum)).sum)).sum

/-- Total quads the generator emits for a chunk. -/
def cellQuadCount (w : World) (cX cY cZ : Int) : Nat :=
  tripleSum w.cellSize (fun y z x =>
    faceCount w (cX * (w.cellSize : Int) + (x : Int)) (cY * (w.cellSize : Int) + (y : Int))
      (cZ * (w.cellSize : Int) + (z : Int)))

theorem pushCorner_foldl_length (w : World) (x y z uvVoxel : Nat) (f : Face) :
    ∀ (cs : List Corner) (g : GeomData),
      ((cs.foldl (pushCorner w x y z uvVoxel f) g).positions.length =
        g.positions.length + 3 * cs.length) ∧
      (cs.foldl (pushCorner w x y z uvVoxel f) g).indices = g.indices := by
  intro cs
  induction cs with
  | nil => intro g; exact ⟨rfl, rfl⟩
  | cons c cs ih =>
    intro g
    obtain ⟨ih1, ih2⟩ := ih (pushCorner w x y z uvVoxel f g c)
    refine ⟨?_, ?_⟩
    · rw [List.foldl_cons, ih1]
      simp [pushCorner]
      omega
    · rw [List.foldl_cons, ih2]
      rfl

theorem emitFace_length (w : World) (x y z uvVoxel : Nat) (f : Face) (g : GeomData)
    (h4 : f.corners.length = 4) :
    ((emitFace w x y z uvVoxel f g).positions.length = g.positions.length + 12) ∧
      ((emitFace w x y z uvVoxel f g).indices.length = g.indices.length + 6) := by
  obtain ⟨h1, h2⟩ := pushCorner_foldl_length w x y z uvVoxel f f.corners g
  unfold emitFace
  constructor
  · rw [show ∀ g₂ : GeomData, ∀ l, ({ g₂ with indices := l } : GeomData).positions =
      g₂.positions from fun _ _ => rfl]
    rw [h1, h4]
  · rw [show ∀ g₂ : GeomData, ∀ l, ({ g₂ with indices := l } : GeomData).indices =
      l from fun _ _ => rfl]
    rw [List.length_append, h2]
    rfl

theorem genFace_foldl_length (w : World) (vx vy vz : Int) (x y z uvVoxel : Nat) :
    ∀ fs : List Face, (∀ f ∈ fs, f.corners.length = 4) → ∀ g : GeomData,
      ((fs.foldl (genFace w vx vy vz x y z uvVoxel) g).positions.length =
        g.positions.length + 12 * (fs.filter (fun f =>
          decide (w.getVoxel (vx + f.dir.1) (vy + f.dir.2.1) (vz + f.dir.2.2) = 0))).length) ∧
      ((fs.foldl (genFace w vx vy vz x y z uvVoxel) g).indices.length =
        g.indices.length + 6 * (fs.filter (fun f =>
          decide (w.getVoxel (vx + f.dir.1) (vy + f.dir.2.1) (vz + f.dir.2.2) = 0))).length) := by
  intro fs
  induction fs with
  | nil => intro _ g; exact ⟨rfl, rfl⟩
  | cons f fs ih =>
    intro hfs g
    have hf4 : f.corners.length = 4 := hfs f (List.mem_cons_self f fs)
    have hfs₂ : ∀ f₂ ∈ fs, f₂.corners.length = 4 :=
      fun f₂ hf₂ => hfs f₂ (List.mem_cons_of_mem f hf₂)
    by_cases hn : w.getVoxel (vx + f.dir.1) (vy + f.dir.2.1) (vz + f.dir.2.2) = 0
    · have hg : genFace w vx vy vz x y z uvVoxel g f = emitFace w x y z uvVoxel f g := by
        simp [genFace, hn]
      have hflt : ((f :: fs).filter (fun f₂ =>
          decide (w.getVoxel (vx + f₂.dir.1) (vy + f₂.dir.2.1) (vz + f₂.dir.2.2) = 0))).length =
          (fs.filter (fun f₂ =>
          decide (w.getVoxel (vx + f₂.dir.1) (vy + f₂.dir.2.1) (vz + f₂.dir.2.2) = 0))).length
            + 1 := by
        simp [List.filter_cons, hn]
      obtain ⟨ih1, ih2⟩ := ih hfs₂ (emitFace w x y z uvVoxel f g)
      obtain ⟨he1, he2⟩ := emitFace_length w x y z uvVoxel f g hf4
      refine ⟨?_, ?_⟩
      · rw [List.foldl_cons, hg, ih1, he1, hflt]
        ring
      · rw [List.foldl_cons, hg, ih2, he2, hflt]
        ring
    · have hg : genFace w vx vy vz x y z uvVoxel g f = g := by
        simp [genFace, hn]
      have hflt : ((f :: fs).filter (fun f₂ =>
          decide (w.getVoxel (vx + f₂.dir.1) (vy + f₂.dir.2.1) (vz + f₂.dir.2.2) = 0))).length =
          (fs.filter (fun f₂ =>
          decide (w.getVoxel (vx + f₂.dir.1) (vy + f₂.dir.2.1) (vz + f₂.dir.2.2) = 0))).length := by
        simp [List.filter_cons, hn]
      obtain ⟨ih1, ih2⟩ := ih hfs₂ g
      refine ⟨?_, ?_⟩
      · rw [List.foldl_cons, hg, ih1, hflt]
      · rw [List.foldl_cons, hg, ih2, hflt]

theorem genVoxel_length (w : World) (cX cY cZ : Int) (x y z : Nat) (g : GeomData) :
    ((genVoxel w cX cY cZ x y z g).positions.length = g.positions.length +
      12 * faceCount w (cX * (w.cellSize : Int) + (x : Int)) (cY * (w.cellSize : Int) + (y : Int))
        (cZ * (w.cellSize : Int) + (z : Int))) ∧
    ((genVoxel w cX cY cZ x y z g).indices.length = g.indices.length +
      6 * faceCount w (cX * (w.cellSize : Int) + (x : Int)) (cY * (w.cellSize : Int) + (y : Int))
        (cZ * (w.cellSize : Int) + (z : Int))) := by
  have hfs : ∀ f ∈ VoxelFaces, f.corners.length = 4 := by decide
  by_cases hv : w.getVoxel (cX * (w.cellSize : Int) + (x : Int))
      (cY * (w.cellSize : Int) + (y : Int)) (cZ * (w.cellSize : Int) + (z : Int)) ≠ 0
  · obtain ⟨h1, h2⟩ := genFace_foldl_length w (cX * (w.cellSize : Int) + (x : Int))
      (cY * (w.cellSize : Int) + (y : Int)) (cZ * (w.cellSize : Int) + (z : Int)) x y z
      ((w.getVoxel (cX * (w.cellSize : Int) + (x : Int)) (cY * (w.cellSize : Int) + (y : Int))
        (cZ * (w.cellSize : Int) + (z : Int))) - 1) VoxelFaces hfs g
    simp only [genVoxel, if_pos hv, faceCount, emittedFaces, if_pos hv]
    exact ⟨h1, h2⟩
  · simp only [genVoxel, if_neg hv, faceCount, emittedFaces, if_neg hv]
    exact ⟨by simp, by simp⟩

theorem map_sum_congr {α : Type} {l : List α} {f g : α → Nat} (h : ∀ a ∈ l, f a = g a) :
    (l.map f).sum = (l.map g).sum := by
  induction l with
  | nil => rfl
  | cons a l ih =>
    rw [List.map_cons, List.map_cons, List.sum_cons, List.sum_cons,
      h a (List.mem_cons_self a l), ih (fun b hb => h b (List.mem_cons_of_mem a hb))]

theorem sum_map_zero {α : Type} (l : List α) (f : α → Nat) (h : ∀ a ∈ l, f a = 0) :
    (l.map f).sum = 0 := by
  induction l with
  | nil => rfl
  | cons a l ih =>
    rw [List.map_cons, List.sum_cons, h a (List.mem_cons_self a l),
      ih (fun b hb => h b (List.mem_cons_of_mem a hb))]

theorem sum_map_add (l : List Nat) (f g : Nat → Nat) :
    (l.map (fun i => f i + g i)).sum = (l.map f).sum + (l.map g).sum := by
  induction l with
  | nil => rfl
  | cons a l ih =>
    rw [List.map_cons, List.map_cons, List.map_cons, List.sum_cons, List.sum_cons,
      List.sum_cons, ih]
    omega

theorem sum_map_range_single (n k : Nat) (f : Nat → Nat) (hk : k < n)
    (h : ∀ i, i < n → i ≠ k → f i = 0) : ((List.range n).map f).sum = f k := by
  induction n with
  | zero => omega
  | succ n ih =>
    rw [List.range_succ, List.map_append, List.sum_append]
    by_cases hkn : k = n
    · subst hkn
      rw [sum_map_zero (List.range k) f
        (fun i hi => h i (Nat.lt_succ_of_lt (List.mem_range.mp hi))
          (Nat.ne_of_lt (List.mem_range.mp hi)))]
      simp
    · have hk2 : k < n := by omega
      rw [ih hk2 (fun i hi hne => h i (by omega) hne)]
      have hfn : f n = 0 := h n (by omega) (fun he => hkn he.symm)
      simp [hfn]

theorem tripleSum_congr (s : Nat) (f g : Nat → Nat → Nat → Nat)
    (h : ∀ y z x, y < s → z < s → x < s → f y z x = g y z x) :
    tripleSum s f = tripleSum s g := by
  unfold tripleSum
  apply map_sum_congr
  intro y hy
  apply map_sum_congr
  intro z hz
  apply map_sum_congr
  intro x hx
  exact h y z x (List.mem_range.mp hy) (List.mem_range.mp hz) (List.mem_range.mp hx)

theorem tripleSum_add (s : Nat) (f g : Nat → Nat → Nat → Nat) :
    tripleSum s (fun y z x => f y z x + g y z x) = tripleSum s f + tripleSum s g := by
  unfold tripleSum
  have h1 : ∀ y : Nat,
      ((List.range s).map (fun z => ((List.range s).map (fun x => f y z x + g y z x)).sum)).sum =
      ((List.range s).map (fun z => ((List.range s).map (fun x => f y z x)).sum)).sum +
        ((List.range s).map (fun z => ((List.range s).map (fun x => g y z x)).sum)).sum := by
    intro y
    have h2 : ∀ z ∈ List.range s,
        ((List.range s).map (fun x => f y z x + g y z x)).sum =
        (fun z => ((List.range s).map (fun x => f y z x)).sum) z +
          (fun z => ((List.range s).map (fun x => g y z x)).sum) z :=
      fun z _ => sum_map_add _ _ _
    rw [map_sum_congr h2, sum_map_add]
  rw [map_sum_congr (fun y _ => h1 y), sum_map_add]

theorem tripleSum_indicator (s y1 z1 x1 a : Nat) (hy : y1 < s) (hz : z1 < s) (hx : x1 < s) :
    tripleSum s (fun y z x => if (y, z, x) = (y1, z1, x1) then a else 0) = a := by
  unfold tripleSum
  rw [sum_map_range_single s y1 _ hy]
  · rw [sum_map_range_single s z1 _ hz]
    · rw [sum_map_range_single s x1 _ hx]
      · simp
      · intro i hi hne
        simp [hne]
    · intro i hi hne
      apply sum_map_zero
      intro j hj
      simp [hne]
  · intro i hi hne
    apply sum_map_zero
    intro u hu
    apply sum_map_zero
    intro j hj
    simp [hne]

theorem genVoxel_foldl_x (w : World) (cX cY cZ : Int) (y z : Nat) :
    ∀ (xs : List Nat) (g : GeomData),
      (((xs.foldl (fun g x => genVoxel w cX cY cZ x y z g) g).positions.length =
        g.positions.length + 12 * (xs.map (fun x : Nat =>
          faceCount w (cX * (w.cellSize : Int) + (x : Int)) (cY * (w.cellSize : Int) + (y : Int))
            (cZ * (w.cellSize : Int) + (z : Int)))).sum) ∧
      ((xs.foldl (fun g x => genVoxel w cX cY cZ x y z g) g).indices.length =
        g.indices.length + 6 * (xs.map (fun x : Nat =>
          faceCount w (cX * (w.cellSize : Int) + (x : Int)) (cY * (w.cellSize : Int) + (y : Int))
            (cZ * (w.cellSize : Int) + (z : Int)))).sum)) := by
  intro xs
  induction xs with
  | nil => intro g; exact ⟨by simp, by simp⟩
  | cons a xs ih =>
    intro g
    obtain ⟨ih1, ih2⟩ := ih (genVoxel w cX cY cZ a y z g)
    obtain ⟨h1, h2⟩ := genVoxel_length w cX cY cZ a y z g
    refine ⟨?_, ?_⟩
    · rw [List.foldl_cons, ih1, h1, List.map_cons, List.sum_cons]
      ring
    · rw [List.foldl_cons, ih2, h2, List.map_cons, List.sum_cons]
      ring

theorem genVoxel_foldl_z (w : World) (cX cY cZ : Int) (y : Nat) :
    ∀ (zs : List Nat) (g : GeomData),
      (((zs.foldl (fun g z => (List.range w.cellSize).foldl
          (fun g x => genVoxel w cX cY cZ x y z g) g) g).positions.length =
        g.positions.length + 12 * (zs.map (fun z : Nat => ((List.range w.cellSize).map (fun x : Nat =>
          faceCount w (cX * (w.cellSize : Int) + (x : Int)) (cY * (w.cellSize : Int) + (y : Int))
            (cZ * (w.cellSize : Int) + (z : Int)))).sum)).sum) ∧
      ((zs.foldl (fun g z => (List.range w.cellSize).foldl
          (fun g x => genVoxel w cX cY cZ x y z g) g) g).indices.length =
        g.indices.length + 6 * (zs.map (fun z : Nat => ((List.range w.cellSize).map (fun x : Nat =>
          faceCount w (cX * (w.cellSize : Int) + (x : Int)) (cY * (w.cellSize : Int) + (y : Int))
            (cZ * (w.cellSize : Int) + (z : Int)))).sum)).sum)) := by
  intro zs
  induction zs with
  | nil => intro g; exact ⟨by simp, by simp⟩
  | cons a zs ih =>
    intro g
    obtain ⟨ih1, ih2⟩ := ih ((List.range w.cellSize).foldl
      (fun g x => genVoxel w cX cY cZ x y a g) g)
    obtain ⟨h1, h2⟩ := genVoxel_foldl_x w cX cY cZ y a (List.range w.cellSize) g
    refine ⟨?_, ?_⟩
    · rw [List.foldl_cons, ih1, h1, List.map_cons, List.sum_cons]
      ring
    · rw [List.foldl_cons, ih2, h2, List.map_cons, List.sum_cons]
      ring

theorem genVoxel_foldl_y (w : World) (cX cY cZ : Int) :
    ∀ (ys : List Nat) (g : GeomData),
      (((ys.foldl (fun g y => (List.range w.cellSize).foldl
          (fun g z => (List.range w.cellSize).foldl
            (fun g x => genVoxel w cX cY cZ x y z g) g) g) g).positions.length =
        g.positions.length + 12 * (ys.map (fun y : Nat => ((List.range w.cellSize).map (fun z : Nat =>
          ((List.range w.cellSize).map (fun x : Nat =>
          faceCount w (cX * (w.cellSize : Int) + (x : Int)) (cY * (w.cellSize : Int) + (y : Int))
            (cZ * (w.cellSize : Int) + (z : Int)))).sum)).sum)).sum) ∧
      ((ys.foldl (fun g y => (List.range w.cellSize).foldl
          (fun g z => (List.range w.cellSize).foldl
            (fun g x => genVoxel w cX cY cZ x y z g) g) g) g).indices.length =
        g.indices.length + 6 * (ys.map (fun y : Nat => ((List.range w.cellSize).map (fun z : Nat =>
          ((List.range w.cellSize).map (fun x : Nat =>
          faceCount w (cX * (w.cellSize : Int) + (x : Int)) (cY * (w.cellSize : Int) + (y : Int))
            (cZ * (w.cellSize : Int) + (z : Int)))).sum)).sum)).sum)) := by
  intro ys
  induction ys with
  | nil => intro g; exact ⟨by simp, by simp⟩
  | cons a ys ih =>
    intro g
    obtain ⟨ih1, ih2⟩ := ih ((List.range w.cellSize).foldl
      (fun g z => (List.range w.cellSize).foldl (fun g x => genVoxel w cX cY cZ x a z g) g) g)
    obtain ⟨h1, h2⟩ := genVoxel_foldl_z w cX cY cZ a (List.range w.cellSize) g
    refine ⟨?_, ?_⟩
    · rw [List.foldl_cons, ih1, h1, List.map_cons, List.sum_cons]
      ring
    · rw [List.foldl_cons, ih2, h2, List.map_cons, List.sum_cons]
      ring

/-- Buffer sizes of the generator: 12 position numbers (4 vertices) and 6
triangle indices per emitted quad. -/
theorem generate_length (w : World) (cX cY cZ : Int) :
    ((w.generateGeometryDataForCell cX cY cZ).positions.length =
      12 * cellQuadCount w cX cY cZ) ∧
    ((w.generateGeometryDataForCell cX cY cZ).indices.length =
      6 * cellQuadCount w cX cY cZ) := by
  obtain ⟨h1, h2⟩ := genVoxel_foldl_y w cX cY cZ (List.range w.cellSize) ⟨[], [], [], []⟩
  unfold World.generateGeometryDataForCell cellQuadCount tripleSum
  exact ⟨by rw [h1]; simp, by rw [h2]; simp⟩

/-- The six face directions, in table order. -/
def dirList : List (Int × Int × Int) :=
  [(-1, 0, 0), (1, 0, 0), (0, -1, 0), (0, 1, 0), (0, 0, -1), (0, 0, 1)]

theorem faces_dir_mem : ∀ f ∈ VoxelFaces, f.dir ∈ dirList := by decide

theorem dirList_ne_zero : ∀ d ∈ dirList, d ≠ ((0, 0, 0) : Int × Int × Int) := by decide

theorem dirList_neg_mem :
    ∀ d ∈ dirList, ((-d.1, -d.2.1, -d.2.2) : Int × Int × Int) ∈ dirList := by decide

theorem filter_dir_ne_length :
    ∀ d ∈ dirList, (VoxelFaces.filter (fun f => decide (f.dir ≠ d))).length = 5 := by decide

theorem faceCount_eq_zero (w : World) (vx vy vz : Int) (h : w.getVoxel vx vy vz = 0) :
    faceCount w vx vy vz = 0 := by
  simp [faceCount, emittedFaces, h]

/-- A solid voxel all six of whose neighbors are empty emits all six faces. -/
theorem emittedFaces_all_empty (w : World) (vx vy vz : Int)
    (hsolid : w.getVoxel vx vy vz ≠ 0)
    (hall : ∀ d ∈ dirList, w.getVoxel (vx + d.1) (vy + d.2.1) (vz + d.2.2) = 0) :
    emittedFaces w vx vy vz = VoxelFaces := by
  unfold emittedFaces
  rw [if_pos hsolid]
  apply List.filter_eq_self.mpr
  intro f hf
  rw [hall f.dir (faces_dir_mem f hf)]
  simp

/-- A solid voxel with exactly one solid neighbor, in direction `d`, emits
exactly the five faces whose direction is not `d`. -/
theorem emittedFaces_single_neighbor (w : World) (vx vy vz : Int) (d : Int × Int × Int)
    (hsolid : w.getVoxel vx vy vz ≠ 0)
    (hn : w.getVoxel (vx + d.1) (vy + d.2.1) (vz + d.2.2) ≠ 0)
    (hrest : ∀ d₂ ∈ dirList, d₂ ≠ d → w.getVoxel (vx + d₂.1) (vy + d₂.2.1) (vz + d₂.2.2) = 0) :
    emittedFaces w vx vy vz = VoxelFaces.filter (fun f => decide (f.dir ≠ d)) := by
  unfold emittedFaces
  rw [if_pos hsolid]
  apply List.filter_congr
  intro f hf
  by_cases hfd : f.dir = d
  · rw [hfd]
    simp [hn]
  · rw [hrest f.dir (faces_dir_mem f hf) hfd]
    simp [hfd]

/-- Claim C4: for every store whose target chunk holds exactly one solid
voxel, all six of whose neighbors (across chunk borders included, missing
chunks reading as empty) are empty, `generateGeometryDataForCell` emits
exactly 6 quads: 24 vertices (72 position numbers) and 36 index entries. -/
theorem claim_C4 (w : World) (cX cY cZ : Int) (px py pz : Nat)
    (hpx : px < w.cellSize) (hpy : py < w.cellSize) (hpz : pz < w.cellSize)
    (hsolid : w.getVoxel (cX * (w.cellSize : Int) + (px : Int))
      (cY * (w.cellSize : Int) + (py : Int)) (cZ * (w.cellSize : Int) + (pz : Int)) ≠ 0)
    (hother : ∀ x : Nat, x < w.cellSize → ∀ y : Nat, y < w.cellSize →
      ∀ z : Nat, z < w.cellSize → (x, y, z) ≠ (px, py, pz) →
      w.getVoxel (cX * (w.cellSize : Int) + (x : Int)) (cY * (w.cellSize : Int) + (y : Int))
        (cZ * (w.cellSize : Int) + (z : Int)) = 0)
    (hnbr : ∀ d ∈ dirList, w.getVoxel (cX * (w.cellSize : Int) + (px : Int) + d.1)
      (cY * (w.cellSize : Int) + (py : Int) + d.2.1)
      (cZ * (w.cellSize : Int) + (pz : Int) + d.2.2) = 0) :
    (w.generateGeometryDataForCell cX cY cZ).positions.length = 72 ∧
      (w.generateGeometryDataForCell cX cY cZ).indices.length = 36 := by
  obtain ⟨hg1, hg2⟩ := generate_length w cX cY cZ
  have hfc : faceCount w (cX * (w.cellSize : Int) + (px : Int))
      (cY * (w.cellSize : Int) + (py : Int)) (cZ * (w.cellSize : Int) + (pz : Int)) = 6 := by
    rw [faceCount, emittedFaces_all_empty w _ _ _ hsolid hnbr]
    rfl
  have hcnt : cellQuadCount w cX cY cZ = 6 := by
    unfold cellQuadCount
    rw [tripleSum_congr w.cellSize _
      (fun y z x => if (y, z, x) = (py, pz, px) then 6 else 0) ?_]
    · exact tripleSum_indicator w.cellSize py pz px 6 hpy hpz hpx
    · intro y z x hy hz hx
      by_cases hp : ((y, z, x) : Nat × Nat × Nat) = (py, pz, px)
      · simp only [Prod.mk.injEq] at hp
        obtain ⟨hpy2, hpz2, hpx2⟩ := hp
        subst hpy2; subst hpz2; subst hpx2
        simpa using hfc
      · have hne : ((x, y, z) : Nat × Nat × Nat) ≠ (px, py, pz) := by
          simp only [Ne, Prod.mk.injEq] at hp ⊢
          omega
        have h0 := faceCount_eq_zero w (cX * (w.cellSize : Int) + (x : Int))
          (cY * (w.cellSize : Int) + (y : Int)) (cZ * (w.cellSize : Int) + (z : Int))
          (hother x hx y hy z hz hne)
        simp [hp, h0]
  rw [hg1, hg2, hcnt]
  exact ⟨rfl, rfl⟩

/-- Claim C4 witness: a 2-sized world with one voxel at the origin. -/
theorem claim_C4_witness :
    ((((emptyWorld 2).setVoxel 0 0 0 5 true).generateGeometryDataForCell 0 0 0).positions.length
        = 72) ∧
      ((((emptyWorld 2).setVoxel 0 0 0 5 true).generateGeometryDataForCell 0 0 0
        ).indices.length = 36) :=
  claim_C4 ((emptyWorld 2).setVoxel 0 0 0 5 true) 0 0 0 0 0 0 (by decide) (by decide)
    (by decide) (by decide) (by decide) (by decide)

/-- Claim C5: for every store whose target chunk holds exactly two adjacent
solid voxels (adjacent along one of the six face directions `d`) with every
other voxel empty, extraction emits no quad on the shared side — the emitted faces of each
voxel are exactly the five whose direction is not the one
pointing at the other voxel — and 10 quads in total (120 position numbers,
60 index entries); and in general a face is emitted iff its voxel is
non-empty and the neighbor at voxel + face normal (global `getVoxel`,
reporting 0 for missing chunks) is empty. -/
theorem claim_C5 (w : World) (cX cY cZ : Int) (x1 y1 z1 x2 y2 z2 : Nat)
    (d : Int × Int × Int) (hd : d ∈ dirList)
    (hx1 : x1 < w.cellSize) (hy1 : y1 < w.cellSize) (hz1 : z1 < w.cellSize)
    (hx2 : x2 < w.cellSize) (hy2 : y2 < w.cellSize) (hz2 : z2 < w.cellSize)
    (hadj : ((cX * (w.cellSize : Int) + (x2 : Int), cY * (w.cellSize : Int) + (y2 : Int),
        cZ * (w.cellSize : Int) + (z2 : Int)) : Int × Int × Int) =
      (cX * (w.cellSize : Int) + (x1 : Int) + d.1, cY * (w.cellSize : Int) + (y1 : Int) + d.2.1,
        cZ * (w.cellSize : Int) + (z1 : Int) + d.2.2))
    (hs1 : w.getVoxel (cX * (w.cellSize : Int) + (x1 : Int)) (cY * (w.cellSize : Int) + (y1 : Int))
      (cZ * (w.cellSize : Int) + (z1 : Int)) ≠ 0)
    (hs2 : w.getVoxel (cX * (w.cellSize : Int) + (x2 : Int)) (cY * (w.cellSize : Int) + (y2 : Int))
      (cZ * (w.cellSize : Int) + (z2 : Int)) ≠ 0)
    (hoth : ∀ x : Nat, x < w.cellSize → ∀ y : Nat, y < w.cellSize →
      ∀ z : Nat, z < w.cellSize →
      ((x, y, z) = (x1, y1, z1) ∨ (x, y, z) = (x2, y2, z2) ∨
        w.getVoxel (cX * (w.cellSize : Int) + (x : Int)) (cY * (w.cellSize : Int) + (y : Int))
          (cZ * (w.cellSize : Int) + (z : Int)) = 0))
    (hn1 : ∀ d₂ ∈ dirList, d₂ ≠ d →
      w.getVoxel (cX * (w.cellSize : Int) + (x1 : Int) + d₂.1)
        (cY * (w.cellSize : Int) + (y1 : Int) + d₂.2.1)
        (cZ * (w.cellSize : Int) + (z1 : Int) + d₂.2.2) = 0)
    (hn2 : ∀ d₂ ∈ dirList, d₂ ≠ ((-d.1, -d.2.1, -d.2.2) : Int × Int × Int) →
      w.getVoxel (cX * (w.cellSize : Int) + (x2 : Int) + d₂.1)
        (cY * (w.cellSize : Int) + (y2 : Int) + d₂.2.1)
        (cZ * (w.cellSize : Int) + (z2 : Int) + d₂.2.2) = 0) :
    ((w.generateGeometryDataForCell cX cY cZ).positions.length = 120 ∧
      (w.generateGeometryDataForCell cX cY cZ).indices.length = 60) ∧
    emittedFaces w (cX * (w.cellSize : Int) + (x1 : Int)) (cY * (w.cellSize : Int) + (y1 : Int))
      (cZ * (w.cellSize : Int) + (z1 : Int)) =
        VoxelFaces.filter (fun f => decide (f.dir ≠ d)) ∧
    emittedFaces w (cX * (w.cellSize : Int) + (x2 : Int)) (cY * (w.cellSize : Int) + (y2 : Int))
      (cZ * (w.cellSize : Int) + (z2 : Int)) =
        VoxelFaces.filter (fun f =>
          decide (f.dir ≠ ((-d.1, -d.2.1, -d.2.2) : Int × Int × Int))) ∧
    (∀ (vx vy vz : Int) (f : Face), f ∈ emittedFaces w vx vy vz ↔
      (f ∈ VoxelFaces ∧ w.getVoxel vx vy vz ≠ 0 ∧
        w.getVoxel (vx + f.dir.1) (vy + f.dir.2.1) (vz + f.dir.2.2) = 0)) := by
  have hadj2 := hadj
  simp only [Prod.mk.injEq] at hadj2
  obtain ⟨ha1, ha2, ha3⟩ := hadj2
  have hp2 : w.getVoxel (cX * (w.cellSize : Int) + (x1 : Int) + d.1)
      (cY * (w.cellSize : Int) + (y1 : Int) + d.2.1)
      (cZ * (w.cellSize : Int) + (z1 : Int) + d.2.2) ≠ 0 := by
    rw [← ha1, ← ha2, ← ha3]
    exact hs2
  have hb1 : cX * (w.cellSize : Int) + (x2 : Int) + -d.1 =
      cX * (w.cellSize : Int) + (x1 : Int) := by linarith
  have hb2 : cY * (w.cellSize : Int) + (y2 : Int) + -d.2.1 =
      cY * (w.cellSize : Int) + (y1 : Int) := by linarith
  have hb3b : cZ * (w.cellSize : Int) + (z2 : Int) + -d.2.2 =
      cZ * (w.cellSize : Int) + (z1 : Int) := by linarith
  have hp1n : w.getVoxel (cX * (w.cellSize : Int) + (x2 : Int) + -d.1)
      (cY * (w.cellSize : Int) + (y2 : Int) + -d.2.1)
      (cZ * (w.cellSize : Int) + (z2 : Int) + -d.2.2) ≠ 0 := by
    rw [hb1, hb2, hb3b]
    exact hs1
  have he1 := emittedFaces_single_neighbor w (cX * (w.cellSize : Int) + (x1 : Int))
    (cY * (w.cellSize : Int) + (y1 : Int)) (cZ * (w.cellSize : Int) + (z1 : Int)) d
    hs1 hp2 hn1
  have he2 := emittedFaces_single_neighbor w (cX * (w.cellSize : Int) + (x2 : Int))
    (cY * (w.cellSize : Int) + (y2 : Int)) (cZ * (w.cellSize : Int) + (z2 : Int))
    ((-d.1, -d.2.1, -d.2.2) : Int × Int × Int) hs2 hp1n hn2
  have hf1 : faceCount w (cX * (w.cellSize : Int) + (x1 : Int))
      (cY * (w.cellSize : Int) + (y1 : Int)) (cZ * (w.cellSize : Int) + (z1 : Int)) = 5 := by
    rw [faceCount, he1]
    exact filter_dir_ne_length d hd
  have hf2 : faceCount w (cX * (w.cellSize : Int) + (x2 : Int))
      (cY * (w.cellSize : Int) + (y2 : Int)) (cZ * (w.cellSize : Int) + (z2 : Int)) = 5 := by
    rw [faceCount, he2]
    exact filter_dir_ne_length _ (dirList_neg_mem d hd)
  have hd0 : d ≠ ((0, 0, 0) : Int × Int × Int) := dirList_ne_zero d hd
  have hc1 : (x2 : Int) = (x1 : Int) + d.1 := by linarith
  have hc2 : (y2 : Int) = (y1 : Int) + d.2.1 := by linarith
  have hc3 : (z2 : Int) = (z1 : Int) + d.2.2 := by linarith
  have hlocne : ((y1, z1, x1) : Nat × Nat × Nat) ≠ (y2, z2, x2) := by
    intro heq
    simp only [Prod.mk.injEq] at heq
    obtain ⟨e1, e2, e3⟩ := heq
    have f1 : d.1 = 0 := by
      have e3i : (x2 : Int) = (x1 : Int) := by exact_mod_cast e3.symm
      linarith
    have f2 : d.2.1 = 0 := by
      have e1i : (y2 : Int) = (y1 : Int) := by exact_mod_cast e1.symm
      linarith
    have f3 : d.2.2 = 0 := by
      have e2i : (z2 : Int) = (z1 : Int) := by exact_mod_cast e2.symm
      linarith
    exact hd0 (Prod.ext_iff.mpr ⟨f1, Prod.ext_iff.mpr ⟨f2, f3⟩⟩)
  have hcnt : cellQuadCount w cX cY cZ = 10 := by
    unfold cellQuadCount
    rw [tripleSum_congr w.cellSize _
      (fun y z x => (if (y, z, x) = (y1, z1, x1) then 5 else 0) +
        (if (y, z, x) = (y2, z2, x2) then 5 else 0)) ?_]
    · rw [tripleSum_add, tripleSum_indicator w.cellSize y1 z1 x1 5 hy1 hz1 hx1,
        tripleSum_indicator w.cellSize y2 z2 x2 5 hy2 hz2 hx2]
    · intro y z x hy hz hx
      by_cases hq1 : ((y, z, x) : Nat × Nat × Nat) = (y1, z1, x1)
      · simp only [Prod.mk.injEq] at hq1
        obtain ⟨e1, e2, e3⟩ := hq1
        subst e1; subst e2; subst e3
        have hq2 : ¬(((y, z, x) : Nat × Nat × Nat) = (y2, z2, x2)) := by
          simp only [Ne, Prod.mk.injEq] at hlocne ⊢
          omega
        simp [hq2, hf1]
      · by_cases hq2 : ((y, z, x) : Nat × Nat × Nat) = (y2, z2, x2)
        · simp only [Prod.mk.injEq] at hq2
          obtain ⟨e1, e2, e3⟩ := hq2
          subst e1; subst e2; subst e3
          simp [hq1, hf2]
        · have hne1 : ((x, y, z) : Nat × Nat × Nat) ≠ (x1, y1, z1) := by
            simp only [Ne, Prod.mk.injEq] at hq1 ⊢
            omega
          have hne2 : ((x, y, z) : Nat × Nat × Nat) ≠ (x2, y2, z2) := by
            simp only [Ne, Prod.mk.injEq] at hq2 ⊢
            omega
          have h0 := faceCount_eq_zero w (cX * (w.cellSize : Int) + (x : Int))
            (cY * (w.cellSize : Int) + (y : Int)) (cZ * (w.cellSize : Int) + (z : Int))
            (((hoth x hx y hy z hz).resolve_left hne1).resolve_left hne2)
          simp [hq1, hq2, h0]
  obtain ⟨hg1, hg2⟩ := generate_length w cX cY cZ
  refine ⟨⟨?_, ?_⟩, he1, he2, ?_⟩
  · rw [hg1, hcnt]
  · rw [hg2, hcnt]
  · intro vx vy vz f
    by_cases hv : w.getVoxel vx vy vz = 0
    · simp [emittedFaces, hv]
    · simp [emittedFaces, hv, List.mem_filter]

/-- Claim C5 witness: a 2-sized world with two voxels side by side along x. -/
theorem claim_C5_witness :
    (((((emptyWorld 2).setVoxel 0 0 0 5 true).setVoxel 1 0 0 5 true
      ).generateGeometryDataForCell 0 0 0).positions.length = 120) ∧
    (((((emptyWorld 2).setVoxel 0 0 0 5 true).setVoxel 1 0 0 5 true
      ).generateGeometryDataForCell 0 0 0).indices.length = 60) :=
  (claim_C5 (((emptyWorld 2).setVoxel 0 0 0 5 true).setVoxel 1 0 0 5 true) 0 0 0
    0 0 0 1 0 0 (1, 0, 0) (by decide) (by decide) (by decide) (by decide) (by decide)
    (by decide) (by decide) (by decide) (by decide) (by decide)
    (by
      intro x hx y hy z hz
      have hx2 : x < 2 := hx
      have hy2 : y < 2 := hy
      have hz2 : z < 2 := hz
      interval_cases x <;> interval_cases y <;> interval_cases z <;> decide)
    (by decide) (by decide)).1

end MeshExtraction

section RayIntersection

/-- A point of voxel space (a THREE.Vector3 as used by `intersectRay`). -/
structure Vec3 where
  x : Rat
  y : Rat
  z : Rat
  deriving DecidableEq

/-- The hit record `intersectRay` returns (`src/main.js` lines 177-189). -/
structure Hit where
  position : Rat × Rat × Rat
  normal : Int × Int × Int
  voxel : Nat
  deriving DecidableEq

/-- An extended parametric value: `none` models the JS `Infinity` taken by
`t*Delta`/`t*Max` when the component of the ray direction on that axis is 0. -/
abbrev TVal : Type := Option Rat

/-- The JS comparison `a < b` on possibly-infinite values:
`Infinity < b` is false (also for `b = Infinity`), finite `< Infinity` is
true. -/
def ltInf : TVal → TVal → Bool
  | none, _ => false
  | some _, none => true
  | some a, some b => decide (a < b)

/-- The JS update `tMax += tDelta` on possibly-infinite values. -/
def addInf : TVal → TVal → TVal
  | some a, some b => some (a + b)
  | _, _ => none

/-- The per-ray constants of `intersectRay` (`src/main.js` lines 139-169):
the normalized direction (`dx/=len` etc.), the per-axis integer step, the
per-axis boundary-crossing distance `|1/d|` in units of `t` (`none` when
the component is 0, where JS gets `Infinity`), and the start point.  The
ray length `len = Math.sqrt(lenSq)` is taken as a parameter because square
roots have no exact rational counterpart; the theorems constrain it (or, at
concrete inputs, instantiate it with the exact root). -/
structure RayParams where
  len : Rat
  dx : Rat
  dy : Rat
  dz : Rat
  stepX : Int
  stepY : Int
  stepZ : Int
  txDelta : TVal
  tyDelta : TVal
  tzDelta : TVal
  startX : Rat
  startY : Rat
  startZ : Rat

/-- Build the ray constants from start/end points and the length. -/
def rayParams (start stop : Vec3) (len : Rat) : RayParams :=
  let dx := (stop.x - start.x) / len
  let dy := (stop.y - start.y) / len
  let dz := (stop.z - start.z) / len
  { len := len, dx := dx, dy := dy, dz := dz,
    stepX := if dx > 0 then 1 else -1,
    stepY := if dy > 0 then 1 else -1,
    stepZ := if dz > 0 then 1 else -1,
    txDelta := if dx = 0 then none else some |1 / dx|,
    tyDelta := if dy = 0 then none else some |1 / dy|,
    tzDelta := if dz = 0 then none else some |1 / dz|,
    startX := start.x, startY := start.y, startZ := start.z }

/-- The mutable state of the stepping loop: accumulated parameter `t`, the
current voxel indices, the pending boundary crossings, and the axis stepped
last (-1 before any step). -/
structure RayState where
  t : Rat
  ix : Int
  iy : Int
  iz : Int
  txMax : TVal
  tyMax : TVal
  tzMax : TVal
  steppedIndex : Int

/-- Initialisation of the loop state (`src/main.js` lines 149-171): floor the start point and compute for each
axis its first boundary crossing `tMax = tDelta * dist` (`Infinity`, i.e.
`none`, when `tDelta` is infinite). -/
def initState (p : RayParams) : RayState :=
  let ix := ⌊p.startX⌋
  let iy := ⌊p.startY⌋
  let iz := ⌊p.startZ⌋
  let xDist : Rat := if p.stepX > 0 then (ix : Rat) + 1 - p.startX else p.startX - (ix : Rat)
  let yDist : Rat := if p.stepY > 0 then (iy : Rat) + 1 - p.startY else p.startY - (iy : Rat)
  let zDist : Rat := if p.stepZ > 0 then (iz : Rat) + 1 - p.startZ else p.startZ - (iz : Rat)
  { t := 0, ix := ix, iy := iy, iz := iz,
    txMax := p.txDelta.map (fun d => d * xDist),
    tyMax := p.tyDelta.map (fun d => d * yDist),
    tzMax := p.tzDelta.map (fun d => d * zDist),
    steppedIndex := -1 }

/-- The value assigned to `t` when the `tMax` of the chosen axis is taken: a
finite value is used as is; the infinite case (reachable only for a
degenerate ray with every axis infinite) becomes a value beyond the loop
bound, matching the JS `t = Infinity`, which likewise exits the loop. -/
def tOf (len : Rat) : TVal → Rat
  | some v => v
  | none => len + 1

/-- One advancement of the loop (`src/main.js` lines 193-219): compare
`txMax` with `tyMax` first, then the winner with `tzMax`; step that axis,
assign its `tMax` to `t`, add its `tDelta` to its `tMax`, and record the
stepped axis. -/
def stepRay (p : RayParams) (s : RayState) : RayState :=
  if ltInf s.txMax s.tyMax then
    if ltInf s.txMax s.tzMax then
      { s with
        ix := s.ix + p.stepX,
        t := tOf p.len s.txMax,
        txMax := addInf s.txMax p.txDelta,
        steppedIndex := 0 }
    else
      { s with
        iz := s.iz + p.stepZ,
        t := tOf p.len s.tzMax,
        tzMax := addInf s.tzMax p.tzDelta,
        steppedIndex := 2 }
  else
    if ltInf s.tyMax s.tzMax then
      { s with
        iy := s.iy + p.stepY,
        t := tOf p.len s.tyMax,
        tyMax := addInf s.tyMax p.tyDelta,
        steppedIndex := 1 }
    else
      { s with
        iz := s.iz + p.stepZ,
        t := tOf p.len s.tzMax,
        tzMax := addInf s.tzMax p.tzDelta,
        steppedIndex := 2 }

/-- The `while (t <= len)` loop (`src/main.js` lines 174-220): test the
current voxel, return the hit record if solid, else advance.  The explicit
`fuel` argument bounds the number of loop rounds; the result is `none` when
it runs out first (the termination theorem exhibits a fuel that never runs
out), `some none` for the JS `return null`, `some (some h)` for a hit. -/
def intersectLoop (w : World) (p : RayParams) : Nat → RayState → Option (Option Hit)
  | 0, _ => none
  | fuel + 1, s =>
    if s.t ≤ p.len then
      if w.getVoxel s.ix s.iy s.iz ≠ 0 then
        some (some
          { position := (p.startX + s.t * p.dx, p.startY + s.t * p.dy, p.startZ + s.t * p.dz),
            normal := (if s.steppedIndex = 0 then -p.stepX else 0,
              if s.steppedIndex = 1 then -p.stepY else 0,
              if s.steppedIndex = 2 then -p.stepZ else 0),
            voxel := w.getVoxel s.ix s.iy s.iz })
      else
        intersectLoop w p fuel (stepRay p s)
    else
      some none

/-- Source method `intersectRay` (`src/main.js` lines 138-223). -/
def World.intersectRay (w : World) (start stop : Vec3) (len : Rat) (fuel : Nat) :
    Option (Option Hit) :=
  intersectLoop w (rayParams start stop len) fuel (initState (rayParams start stop len))

theorem ltInf_self (a : TVal) : ltInf a a = false := by
  cases a with
  | none => rfl
  | some v => simp [ltInf]

/-- Claim C6: the stepping loop chooses its axis by comparing `txMax` with
`tyMax` first and the winner with `tzMax`: `txMax < tyMax` and
`txMax < tzMax` steps X, `txMax < tyMax` otherwise steps Z,
`txMax ≥ tyMax` with `tyMax < tzMax` steps Y, otherwise Z; in particular an
exact three-way tie steps Z. -/
theorem claim_C6 (p : RayParams) (s : RayState) :
    ((ltInf s.txMax s.tyMax = true → ltInf s.txMax s.tzMax = true →
      (stepRay p s).steppedIndex = 0 ∧ (stepRay p s).ix = s.ix + p.stepX) ∧
    (ltInf s.txMax s.tyMax = true → ltInf s.txMax s.tzMax = false →
      (stepRay p s).steppedIndex = 2 ∧ (stepRay p s).iz = s.iz + p.stepZ) ∧
    (ltInf s.txMax s.tyMax = false → ltInf s.tyMax s.tzMax = true →
      (stepRay p s).steppedIndex = 1 ∧ (stepRay p s).iy = s.iy + p.stepY) ∧
    (ltInf s.txMax s.tyMax = false → ltInf s.tyMax s.tzMax = false →
      (stepRay p s).steppedIndex = 2 ∧ (stepRay p s).iz = s.iz + p.stepZ) ∧
    (s.txMax = s.tyMax → s.tyMax = s.tzMax → (stepRay p s).steppedIndex = 2)) := by
  refine ⟨fun h1 h2 => ?_, fun h1 h2 => ?_, fun h1 h2 => ?_, fun h1 h2 => ?_, fun h1 h2 => ?_⟩
  · simp [stepRay, h1, h2]
  · simp [stepRay, h1, h2]
  · simp [stepRay, h1, h2]
  · simp [stepRay, h1, h2]
  · have hxy : ltInf s.txMax s.tyMax = false := by rw [h1, ltInf_self]
    have hyz : ltInf s.tyMax s.tzMax = false := by rw [h2, ltInf_self]
    simp [stepRay, hxy, hyz]

/-- Claim C6 witness: on an exact three-way tie the Z axis is stepped. -/
theorem claim_C6_witness :
    (stepRay ⟨11, 0, 1, 0, 1, 1, 1, none, some 1, none, 0, 0, 0⟩
      ⟨0, 0, 0, 0, some 1, some 1, some 1, -1⟩).steppedIndex = 2 :=
  (claim_C6 ⟨11, 0, 1, 0, 1, 1, 1, none, some 1, none, 0, 0, 0⟩
    ⟨0, 0, 0, 0, some 1, some 1, some 1, -1⟩).2.2.2.2 rfl rfl

/-- Claim C7: in a world whose only solid voxel is at grid cell (0,0,0),
the ray from (0.5, 10, 0.5) straight down to (0.5, -1, 0.5) (length 11)
hits the top face: intersection point (0.5, 1, 0.5) with y = 1, normal
(0, 1, 0), and the stored voxel type 1 — it does not pass through to y = 0
or report a miss. -/
theorem claim_C7 :
    ((emptyWorld 32).setVoxel 0 0 0 1 true).intersectRay
      ⟨1/2, 10, 1/2⟩ ⟨1/2, -1, 1/2⟩ 11 32 =
      some (some { position := (1/2, 1, 1/2), normal := (0, 1, 0), voxel := 1 }) := by
  with_unfolding_all decide

/-- Number of boundary crossings axis `i` can still make with parameter
within the ray length: `⌊(len - tMax)/tDelta⌋ + 1` clamped at 0; 0 for an
infinite axis. -/
def remSteps (len : Rat) : TVal → TVal → Nat
  | some tm, some dl => (⌊(len - tm) / dl⌋ + 1).toNat
  | _, _ => 0

/-- Decreasing measure of the stepping loop: 1 while the loop condition
`t ≤ len` holds, plus the remaining crossings of each axis. -/
def rayMeasure (p : RayParams) (s : RayState) : Nat :=
  (if s.t ≤ p.len then 1 else 0) + remSteps p.len s.txMax p.txDelta +
    remSteps p.len s.tyMax p.tyDelta + remSteps p.len s.tzMax p.tzDelta

/-- A fuel that always suffices for the stepping loop: the initial measure
plus one, i.e. one round per remaining boundary crossing of each axis, plus
the final round that exits. -/
def rayFuel (p : RayParams) : Nat := rayMeasure p (initState p) + 1

/-- Loop invariant: whenever the `tMax` of an axis is finite, its `tDelta` is a
finite positive value. -/
def StateOk (p : RayParams) (s : RayState) : Prop :=
  (s.txMax.isSome = true → ∃ d, p.txDelta = some d ∧ 0 < d) ∧
  (s.tyMax.isSome = true → ∃ d, p.tyDelta = some d ∧ 0 < d) ∧
  (s.tzMax.isSome = true → ∃ d, p.tzDelta = some d ∧ 0 < d)

/-- The loop states the DDA traversal reaches from a given state: the
voxels the ray visits are exactly the `(ix, iy, iz)` of these states. -/
inductive Reaches (w : World) (p : RayParams) : RayState → RayState → Prop
  | refl (s : RayState) : Reaches w p s s
  | step (s s₂ : RayState) : Reaches w p s s₂ → s₂.t ≤ p.len →
      w.getVoxel s₂.ix s₂.iy s₂.iz = 0 → Reaches w p s (stepRay p s₂)

theorem reaches_trans (w : World) (p : RayParams) {a b c : RayState}
    (h1 : Reaches w p a b) (h2 : Reaches w p b c) : Reaches w p a c := by
  induction h2 with
  | refl => exact h1
  | step s₂ h ht hv ih => exact Reaches.step _ _ ih ht hv

theorem remSteps_sub_one (len tm dl : Rat) (hd : 0 < dl) (htm : tm ≤ len) :
    remSteps len (some (tm + dl)) (some dl) + 1 = remSteps len (some tm) (some dl) ∧
      1 ≤ remSteps len (some tm) (some dl) := by
  have hdl0 : dl ≠ 0 := ne_of_gt hd
  have hq : 0 ≤ (len - tm) / dl := div_nonneg (by linarith) (le_of_lt hd)
  have hfl : 0 ≤ ⌊(len - tm) / dl⌋ := Int.floor_nonneg.mpr hq
  have hdiv : (len - (tm + dl)) / dl = (len - tm) / dl - 1 := by
    rw [show len - (tm + dl) = (len - tm) - dl by ring, sub_div, div_self hdl0]
  have hfl2 : ⌊(len - (tm + dl)) / dl⌋ = ⌊(len - tm) / dl⌋ - 1 := by
    rw [hdiv, Int.floor_sub_one]
  constructor
  · simp only [remSteps, hfl2]
    omega
  · simp only [remSteps]
    omega

theorem remSteps_zero_of_gt (len tm dl : Rat) (hd : 0 < dl) (htm : len < tm) :
    remSteps len (some tm) (some dl) = 0 := by
  have hq : (len - tm) / dl < 0 := div_neg_of_neg_of_pos (by linarith) hd
  have hfl : ⌊(len - tm) / dl⌋ < 0 := by
    rw [show ((0 : Int) : Int) = ((0 : Int)) from rfl]
    exact Int.floor_lt.mpr (by exact_mod_cast hq)
  simp only [remSteps]
  omega

/-- Stepping one axis strictly decreases its accounting term plus the loop
indicator. -/
theorem step_axis_decr (len : Rat) (tm dl : TVal)
    (hok : tm.isSome = true → ∃ d, dl = some d ∧ 0 < d) :
    (if tOf len tm ≤ len then 1 else 0) + remSteps len (addInf tm dl) dl <
      1 + remSteps len tm dl := by
  cases tm with
  | none =>
    have hgt : ¬(len + 1 ≤ len) := by linarith
    simp [tOf, addInf, remSteps, hgt]
  | some v =>
    obtain ⟨d, hdl, hd⟩ := hok rfl
    subst hdl
    by_cases hv : v ≤ len
    · obtain ⟨heq, hge⟩ := remSteps_sub_one len v d hd hv
      simp only [tOf, addInf]
      rw [if_pos hv]
      omega
    · have h0 : remSteps len (some v) (some d) = 0 :=
        remSteps_zero_of_gt len v d hd (lt_of_not_le hv)
      have h0b : remSteps len (some (v + d)) (some d) = 0 :=
        remSteps_zero_of_gt len (v + d) d hd (by linarith [lt_of_not_le hv])
      simp only [tOf, addInf, h0, h0b]
      rw [if_neg hv]
      omega

theorem rayMeasure_step (p : RayParams) (s : RayState) (hok : StateOk p s)
    (ht : s.t ≤ p.len) : rayMeasure p (stepRay p s) < rayMeasure p s := by
  obtain ⟨hokx, hoky, hokz⟩ := hok
  have hxd := step_axis_decr p.len s.txMax p.txDelta hokx
  have hyd := step_axis_decr p.len s.tyMax p.tyDelta hoky
  have hzd := step_axis_decr p.len s.tzMax p.tzDelta hokz
  unfold stepRay
  by_cases h1 : ltInf s.txMax s.tyMax = true
  · by_cases h2 : ltInf s.txMax s.tzMax = true
    · rw [if_pos h1, if_pos h2]
      simp only [rayMeasure]
      rw [if_pos ht]
      omega
    · rw [if_pos h1, if_neg h2]
      simp only [rayMeasure]
      rw [if_pos ht]
      omega
  · by_cases h3 : ltInf s.tyMax s.tzMax = true
    · rw [if_neg h1, if_pos h3]
      simp only [rayMeasure]
      rw [if_pos ht]
      omega
    · rw [if_neg h1, if_neg h3]
      simp only [rayMeasure]
      rw [if_pos ht]
      omega

theorem axisOk_addInf (tm dl : TVal) (h : tm.isSome = true → ∃ d, dl = some d ∧ 0 < d) :
    (addInf tm dl).isSome = true → ∃ d, dl = some d ∧ 0 < d := by
  cases tm with
  | none => intro hc; simp [addInf] at hc
  | some v =>
    cases dl with
    | none => intro hc; simp [addInf] at hc
    | some d => intro _; exact h rfl

theorem stateOk_step (p : RayParams) (s : RayState) (hok : StateOk p s) :
    StateOk p (stepRay p s) := by
  obtain ⟨hokx, hoky, hokz⟩ := hok
  unfold stepRay
  by_cases h1 : ltInf s.txMax s.tyMax = true
  · by_cases h2 : ltInf s.txMax s.tzMax = true
    · rw [if_pos h1, if_pos h2]
      exact ⟨axisOk_addInf _ _ hokx, hoky, hokz⟩
    · rw [if_pos h1, if_neg h2]
      exact ⟨hokx, hoky, axisOk_addInf _ _ hokz⟩
  · by_cases h3 : ltInf s.tyMax s.tzMax = true
    · rw [if_neg h1, if_pos h3]
      exact ⟨hokx, axisOk_addInf _ _ hoky, hokz⟩
    · rw [if_neg h1, if_neg h3]
      exact ⟨hokx, hoky, axisOk_addInf _ _ hokz⟩

theorem stateOk_init (start stop : Vec3) (len : Rat) :
    StateOk (rayParams start stop len) (initState (rayParams start stop len)) := by
  refine ⟨?_, ?_, ?_⟩ <;> intro h
  · by_cases hdx : (stop.x - start.x) / len = 0
    · exfalso
      simp [initState, rayParams, hdx] at h
    · refine ⟨|1 / ((stop.x - start.x) / len)|, by simp [rayParams, hdx], ?_⟩
      exact abs_pos.mpr (one_div_ne_zero hdx)
  · by_cases hdy : (stop.y - start.y) / len = 0
    · exfalso
      simp [initState, rayParams, hdy] at h
    · refine ⟨|1 / ((stop.y - start.y) / len)|, by simp [rayParams, hdy], ?_⟩
      exact abs_pos.mpr (one_div_ne_zero hdy)
  · by_cases hdz : (stop.z - start.z) / len = 0
    · exfalso
      simp [initState, rayParams, hdz] at h
    · refine ⟨|1 / ((stop.z - start.z) / len)|, by simp [rayParams, hdz], ?_⟩
      exact abs_pos.mpr (one_div_ne_zero hdz)

theorem intersectLoop_none (w : World) (p : RayParams) :
    ∀ (fuel : Nat) (s : RayState), rayMeasure p s < fuel → StateOk p s →
    (∀ s₂, Reaches w p s s₂ → s₂.t ≤ p.len → w.getVoxel s₂.ix s₂.iy s₂.iz = 0) →
    intersectLoop w p fuel s = some none := by
  intro fuel
  induction fuel with
  | zero => intro s hm; exact absurd hm (Nat.not_lt_zero _)
  | succ n ih =>
    intro s hm hok hemp
    rw [intersectLoop]
    by_cases ht : s.t ≤ p.len
    · rw [if_pos ht]
      have hv : w.getVoxel s.ix s.iy s.iz = 0 := hemp s (Reaches.refl s) ht
      rw [if_neg (by simp [hv])]
      apply ih
      · have := rayMeasure_step p s hok ht
        omega
      · exact stateOk_step p s hok
      · intro s₂ hr ht₂
        exact hemp s₂ (reaches_trans w p (Reaches.step s s (Reaches.refl s) ht hv) hr) ht₂
    · rw [if_neg ht]

/-- Claim C8 (amended): for every ray with distinct endpoints whose length
`len` squares to the squared endpoint difference, if every voxel the
stepping loop traverses is empty then `intersectRay` returns "no
intersection"; the loop terminates within `rayFuel` rounds — one round per
remaining per-axis boundary crossing inside the ray length, summed over
the three axes, plus a final exiting round — never looping forever. -/
theorem claim_C8 (w : World) (start stop : Vec3) (len : Rat)
    (hne : start ≠ stop)
    (hsq : len * len = (stop.x - start.x) * (stop.x - start.x) +
      (stop.y - start.y) * (stop.y - start.y) + (stop.z - start.z) * (stop.z - start.z))
    (hemp : ∀ s₂, Reaches w (rayParams start stop len) (initState (rayParams start stop len)) s₂ →
      s₂.t ≤ len → w.getVoxel s₂.ix s₂.iy s₂.iz = 0) :
    w.intersectRay start stop len (rayFuel (rayParams start stop len)) = some none := by
  unfold World.intersectRay rayFuel
  exact intersectLoop_none w (rayParams start stop len) _ _
    (Nat.lt_succ_self _) (stateOk_init start stop len) hemp

/-- Claim C8 witness: a short empty-space ray straight down. -/
theorem claim_C8_witness :
    (emptyWorld 32).intersectRay ⟨1/2, 5/2, 1/2⟩ ⟨1/2, 1/2, 1/2⟩ 2
      (rayFuel (rayParams ⟨1/2, 5/2, 1/2⟩ ⟨1/2, 1/2, 1/2⟩ 2)) = some none :=
  claim_C8 (emptyWorld 32) ⟨1/2, 5/2, 1/2⟩ ⟨1/2, 1/2, 1/2⟩ 2
    (by with_unfolding_all decide) (by with_unfolding_all decide) (fun _ _ _ => rfl)

/-- Claim C8 counterexample to the stated iteration bound: the empty-space
ray of length 10 from (0.5, 10.5, 0.5) straight down to (0.5, 0.5, 0.5)
has minimum per-axis step 1 (its only finite `tDelta` is `tyDelta = 1`),
so the claimed bound allows 10 iterations — but the loop is still running
after 10 rounds (the fuel-10 run exhausts, returning the fuel marker
`none`) and needs 12 rounds (11 voxel tests and the exiting check) to
return "no intersection". -/
theorem claim_C8_counterexample :
    (emptyWorld 32).intersectRay ⟨1/2, 21/2, 1/2⟩ ⟨1/2, 1/2, 1/2⟩ 10 10 = none ∧
      (emptyWorld 32).intersectRay ⟨1/2, 21/2, 1/2⟩ ⟨1/2, 1/2, 1/2⟩ 10 12 = some none := by
  constructor
  · with_unfolding_all decide
  · with_unfolding_all decide

end RayIntersection
